import Mathlib

/-!
Verification of the room/presence/session coordination layer of a
real-time chat relay server.

The server keeps one in-process map `users : socketId -> { username, room }`
(the Connection Registry) and drives per-connection handlers for the
`join`, `message`, `media`, `typing`, `stop-typing` and `disconnect`
events.  Broadcasts go through socket.io rooms: `socket.join(room)` adds a
`(socketId, room)` subscription, `io.to(room)` delivers to every socket
subscribed to `room`, and `socket.to(room)` delivers to every subscribed
socket except the sender.  A socket leaves all of its rooms when it
disconnects (the library does this before the `disconnect` handler runs),
and at no other time — the server never calls `socket.leave`.

Each handler is embedded below as a pure function from the server state
(registry plus room subscriptions) and the event payload to the new state
and the list of deliveries `(recipient socket id, payload)` it emits.
Event payload fields are JavaScript values, modelled as either a string or
`undefined`; the JS string operations used by the handlers
(`String(x)`, `.slice(0, n)`, `.trim()`, `.startsWith(p)`) are modelled
over the character list of the string.  `Date.now()` is passed in as the
`now` argument of a step (the handler reads the clock during one atomic
event, so all reads within one event see the same millisecond).
-/

namespace ChatRelay

/-- A JavaScript value as it arrives in an event payload: a string, or
`undefined` for an absent field. -/
inductive JSVal where
  | undef : JSVal
  | str : String → JSVal
deriving DecidableEq, Repr

/-- JS truthiness for the payload values we model: `undefined` and the
empty string are falsy, every other string is truthy. -/
def JSVal.truthy : JSVal → Bool
  | .undef => false
  | .str s => !(s == (""))

/-- The JS coercion `String(x)`: `String(undefined)` is the literal string
`"undefined"`; a string coerces to itself. -/
def JSVal.toJSString : JSVal → String
  | .undef => ("undefined")
  | .str s => s

/-- The whitespace characters removed by JS `trim` that can occur here. -/
def jsIsWs (c : Char) : Bool := c == ' ' || c == '\t' || c == '\n' || c == '\r'

/-- JS `s.trim()`: remove leading and trailing whitespace. -/
def jsTrim (s : String) : String :=
  ⟨((s.data.dropWhile jsIsWs).reverse.dropWhile jsIsWs).reverse⟩

/-- JS `s.slice(0, n)`: the first `n` characters of `s`. -/
def jsSlice (s : String) (n : Nat) : String := ⟨s.data.take n⟩

/-- The sanitisation `String(x).slice(0, n).trim()` applied by the `join`
and `message` handlers before storing or broadcasting a field. -/
def sliceTrim (n : Nat) (s : String) : String := jsTrim (jsSlice s n)

/-- JS `s.startsWith(p)`. -/
def jsStartsWith (s p : String) : Bool := s.data.take p.data.length == p.data

/-- The value stored in the `users` map for a joined connection:
`{ username, room }`. -/
structure Session where
  username : String
  room : String
deriving DecidableEq, Repr

/-- The `users` map, `socketId -> Session`, in insertion order (a JS `Map`
iterates in insertion order and `set` on an existing key keeps its
position). -/
abbrev Registry := List (String × Session)

/-- JS `Map.prototype.get`: the value at the key, if present. -/
def mapGet (m : Registry) (k : String) : Option Session :=
  match m with
  | [] => none
  | p :: rest => if p.1 == k then some p.2 else mapGet rest k

/-- JS `Map.prototype.set`: replace the value at an existing key in place,
otherwise append a new entry at the end. -/
def mapSet (m : Registry) (k : String) (v : Session) : Registry :=
  match m with
  | [] => [(k, v)]
  | p :: rest => if p.1 == k then (k, v) :: rest else p :: mapSet rest k v

/-- JS `Map.prototype.delete`: remove the entry at the key. -/
def mapDelete (m : Registry) (k : String) : Registry :=
  match m with
  | [] => []
  | p :: rest => if p.1 == k then mapDelete rest k else p :: mapDelete rest k

/-- The room membership table of the socket.io adapter: the set of `(socketId, room)`
subscriptions created by `socket.join` and not yet cleared by a
disconnect. -/
abbrev Rooms := List (String × String)

/-- `socket.join(room)`: subscribe the socket to the room (idempotent);
no existing subscription is removed. -/
def socketJoin (rs : Rooms) (sid room : String) : Rooms :=
  if (sid, room) ∈ rs then rs else rs ++ [(sid, room)]

/-- A disconnecting socket leaves all of its rooms. -/
def socketLeaveAll (rs : Rooms) (sid : String) : Rooms :=
  rs.filter (fun p => !(p.1 == sid))

/-- The sockets currently subscribed to a room: the recipients of a
broadcast addressed to it. -/
def roomMembers (rs : Rooms) (room : String) : List String :=
  (rs.filter (fun p => p.2 == room)).map (fun p => p.1)

/-- The full server state: the Connection Registry and the room
subscriptions of the adapter. -/
structure ServerState where
  users : Registry
  rooms : Rooms
deriving DecidableEq, Repr

/-- A server-to-client event payload. -/
inductive Msg where
  | system (message : String) (timestamp : Nat)
  | chat (id : String) (username : String) (text : String) (timestamp : Nat)
  | mediaMsg (id : String) (username : String) (url : String) (mimetype : String)
      (timestamp : Nat)
  | roomUsers (names : List String)
  | typingEv (username : String)
  | stopTypingEv (username : String)
deriving DecidableEq, Repr

/-- A delivery: which socket receives which payload. -/
abbrev Delivery := String × Msg

/-- `io.to(room).emit(...)`: deliver to every socket subscribed to the room. -/
def ioTo (rs : Rooms) (room : String) (m : Msg) : List Delivery :=
  (roomMembers rs room).map (fun sid => (sid, m))

/-- `socket.to(room).emit(...)`: deliver to every socket subscribed to the
room except the sending socket. -/
def socketTo (rs : Rooms) (sender room : String) (m : Msg) : List Delivery :=
  ((roomMembers rs room).filter (fun sid => !(sid == sender))).map (fun sid => (sid, m))

/-- `getRoomUsers(room)`: scan the `users` map and collect the usernames of
the sessions whose room matches. -/
def getRoomUsers (users : Registry) (room : String) : List String :=
  (users.filter (fun p => p.2.room == room)).map (fun p => p.2.username)

/-- The `join` handler: drop falsy fields, sanitise both fields with
`String(x).slice(0, 30).trim()`, drop if either sanitised field is empty;
otherwise store the session, subscribe the socket to the room, notify the
rest of the room and send the updated roster to the whole room. -/
def handleJoin (st : ServerState) (sid : String) (username room : JSVal) (now : Nat) :
    ServerState × List Delivery :=
  if !username.truthy || !room.truthy then (st, [])
  else
    let safeUsername := sliceTrim 30 username.toJSString
    let safeRoom := sliceTrim 30 room.toJSString
    if safeUsername == ("") || safeRoom == ("") then (st, [])
    else
      let users1 := mapSet st.users sid ⟨safeUsername, safeRoom⟩
      let rooms1 := socketJoin st.rooms sid safeRoom
      (⟨users1, rooms1⟩,
        socketTo rooms1 sid safeRoom
            (.system (safeUsername ++ (" joined the room")) now)
          ++ ioTo rooms1 safeRoom (.roomUsers (getRoomUsers users1 safeRoom)))

/-- The `message` handler: drop if the socket has no session, sanitise the
text with `String(text).slice(0, 2000).trim()`, drop if empty; otherwise
broadcast a chat message with id `` `${socket.id}-${Date.now()}` `` to the
room of the sender. -/
def handleMessage (st : ServerState) (sid : String) (text : JSVal) (now : Nat) :
    ServerState × List Delivery :=
  match mapGet st.users sid with
  | none => (st, [])
  | some user =>
    let safeText := sliceTrim 2000 text.toJSString
    if safeText == ("") then (st, [])
    else
      (st, ioTo st.rooms user.room
        (.chat (sid ++ ("-") ++ Nat.repr now) user.username safeText now))

/-- The `media` handler: drop if the socket has no session, drop unless the
url is a string starting with the upload path; otherwise broadcast a media
message to the room of the sender. -/
def handleMedia (st : ServerState) (sid : String) (url mimetype : JSVal) (now : Nat) :
    ServerState × List Delivery :=
  match mapGet st.users sid with
  | none => (st, [])
  | some user =>
    match url with
    | .undef => (st, [])
    | .str u =>
      if !(jsStartsWith u ("/uploads/")) then (st, [])
      else
        (st, ioTo st.rooms user.room
          (.mediaMsg (sid ++ ("-") ++ Nat.repr now) user.username u
            mimetype.toJSString now))

/-- The `typing` handler: forward the username of the sender to the rest of the
room. -/
def handleTyping (st : ServerState) (sid : String) : ServerState × List Delivery :=
  match mapGet st.users sid with
  | none => (st, [])
  | some user => (st, socketTo st.rooms sid user.room (.typingEv user.username))

/-- The `stop-typing` handler: forward the username of the sender to the rest of
the room. -/
def handleStopTyping (st : ServerState) (sid : String) : ServerState × List Delivery :=
  match mapGet st.users sid with
  | none => (st, [])
  | some user => (st, socketTo st.rooms sid user.room (.stopTypingEv user.username))

/-- The `disconnect` handler.  By the time socket.io fires `disconnect` the
socket has already left all of its rooms, so the subscriptions are pruned
first.  If the socket had a session the handler deletes it, tells the rest
of the room the user left, and sends the roster recomputed after the
deletion to the room; otherwise it emits nothing. -/
def handleDisconnect (st : ServerState) (sid : String) (now : Nat) :
    ServerState × List Delivery :=
  let rooms1 := socketLeaveAll st.rooms sid
  match mapGet st.users sid with
  | none => (⟨st.users, rooms1⟩, [])
  | some user =>
    let users1 := mapDelete st.users sid
    (⟨users1, rooms1⟩,
      socketTo rooms1 sid user.room
          (.system (user.username ++ (" left the room")) now)
        ++ ioTo rooms1 user.room (.roomUsers (getRoomUsers users1 user.room)))

/-- A client-to-server event, tagged with the socket it arrives on. -/
inductive Event where
  | join (sid : String) (username room : JSVal)
  | message (sid : String) (text : JSVal)
  | media (sid : String) (url mimetype : JSVal)
  | typing (sid : String)
  | stopTyping (sid : String)
  | disconnect (sid : String)
deriving DecidableEq, Repr

/-- One atomic event dispatch: the server processes each inbound event to
completion before the next. -/
def step (st : ServerState) (e : Event) (now : Nat) : ServerState × List Delivery :=
  match e with
  | .join sid u r => handleJoin st sid u r now
  | .message sid t => handleMessage st sid t now
  | .media sid u m => handleMedia st sid u m now
  | .typing sid => handleTyping st sid
  | .stopTyping sid => handleStopTyping st sid
  | .disconnect sid => handleDisconnect st sid now

/-- The state of a freshly started server: empty registry, no
subscriptions. -/
def initState : ServerState := ⟨[], []⟩

/-- A history of events with their clock readings. -/
abbrev Trace := List (Event × Nat)

/-- Run a trace from a given state, keeping only the resulting state. -/
def runFrom (st : ServerState) (tr : Trace) : ServerState :=
  tr.foldl (fun s p => (step s p.1 p.2).1) st

/-- The server state reached by a trace from startup. -/
def run (tr : Trace) : ServerState := runFrom initState tr

/-- The number of registry entries stored under a key. -/
def countKey (m : Registry) (k : String) : Nat :=
  (m.filter (fun p => p.1 == k)).length

/-- The state invariant maintained by the server: registry keys are
distinct, and the socket of every registered session is subscribed to the room of its
session. -/
def goodState (st : ServerState) : Prop :=
  (st.users.map Prod.fst).Nodup ∧
  (∀ k s, mapGet st.users k = some s → (k, s.room) ∈ st.rooms)

/-- A small concrete history used to instantiate the theorems: connection
`A` joins room `rm` as `al`. -/
def demoTrace : Trace := [(.join ("A") (.str ("al")) (.str ("rm")), 1)]

/-- `demoTrace` followed by connection `B` joining the same room as `bo`. -/
def demoTrace2 : Trace :=
  [(.join ("A") (.str ("al")) (.str ("rm")), 1),
   (.join ("B") (.str ("bo")) (.str ("rm")), 2)]

/-! Basic facts about the registry map operations. -/

theorem mapGet_mapSet (m : Registry) (k k' : String) (v : Session) :
    mapGet (mapSet m k v) k' = if k' = k then some v else mapGet m k' := by
  induction m with
  | nil =>
    by_cases h : k' = k
    · simp [mapSet, mapGet, h]
    · simp [mapSet, mapGet, h, Ne.symm h]
  | cons p rest ih =>
    by_cases hp : p.1 = k
    · by_cases h : k' = k
      · simp [mapSet, mapGet, hp, h]
      · simp [mapSet, mapGet, hp, h, Ne.symm h]
    · by_cases h : k' = k
      · subst h
        simp [mapSet, mapGet, hp, ih]
      · simp [mapSet, mapGet, hp, h, ih]

theorem mapGet_mapDelete (m : Registry) (k k' : String) :
    mapGet (mapDelete m k) k' = if k' = k then none else mapGet m k' := by
  induction m with
  | nil => simp [mapDelete, mapGet]
  | cons p rest ih =>
    by_cases hp : p.1 = k
    · by_cases h : k' = k
      · subst h
        simp [mapDelete, mapGet, hp, ih]
      · simp [mapDelete, mapGet, hp, h, Ne.symm h, ih]
    · by_cases h : k' = k
      · subst h
        simp [mapDelete, mapGet, hp, ih]
      · simp [mapDelete, mapGet, hp, h, ih]

theorem mapGet_eq_none_iff (m : Registry) (k : String) :
    mapGet m k = none ↔ k ∉ m.map Prod.fst := by
  induction m with
  | nil => simp [mapGet]
  | cons p rest ih =>
    by_cases hp : p.1 = k
    · simp [mapGet, hp]
    · simp [mapGet, hp, ih, Ne.symm hp]

theorem keys_mapSet (m : Registry) (k : String) (v : Session) :
    (mapSet m k v).map Prod.fst =
      if (mapGet m k).isSome then m.map Prod.fst else m.map Prod.fst ++ [k] := by
  induction m with
  | nil => simp [mapSet, mapGet]
  | cons p rest ih =>
    by_cases hp : p.1 = k
    · simp [mapSet, mapGet, hp]
    · by_cases hr : (mapGet rest k).isSome <;> simp [mapSet, mapGet, hp, ih, hr]

theorem keys_mapSet_nodup (m : Registry) (k : String) (v : Session)
    (h : (m.map Prod.fst).Nodup) : ((mapSet m k v).map Prod.fst).Nodup := by
  rw [keys_mapSet]
  by_cases hs : (mapGet m k).isSome
  · simpa [hs] using h
  · have hk : k ∉ m.map Prod.fst := by
      rw [← mapGet_eq_none_iff]
      exact Option.not_isSome_iff_eq_none.mp hs
    simp [hs, List.nodup_append, h, hk]

theorem keys_mapDelete_sublist (m : Registry) (k : String) :
    ((mapDelete m k).map Prod.fst).Sublist (m.map Prod.fst) := by
  induction m with
  | nil => simp [mapDelete]
  | cons p rest ih =>
    by_cases hp : p.1 = k
    · have h1 : mapDelete (p :: rest) k = mapDelete rest k := by simp [mapDelete, hp]
      rw [h1, List.map_cons]
      exact ih.cons _
    · have h1 : mapDelete (p :: rest) k = p :: mapDelete rest k := by
        simp [mapDelete, hp]
      rw [h1, List.map_cons, List.map_cons]
      exact ih.cons₂ _

theorem keys_mapDelete_nodup (m : Registry) (k : String)
    (h : (m.map Prod.fst).Nodup) : ((mapDelete m k).map Prod.fst).Nodup :=
  h.sublist (keys_mapDelete_sublist m k)

theorem length_mapSet_of_isSome (m : Registry) (k : String) (v : Session)
    (h : (mapGet m k).isSome) : (mapSet m k v).length = m.length := by
  induction m with
  | nil => simp [mapGet] at h
  | cons p rest ih =>
    by_cases hp : p.1 = k <;> simp [mapSet, hp]
    exact ih (by simpa [mapGet, hp] using h)

theorem mem_of_mapGet_eq_some {m : Registry} {k : String} {s : Session}
    (h : mapGet m k = some s) : (k, s) ∈ m := by
  induction m with
  | nil => simp [mapGet] at h
  | cons p rest ih =>
    obtain ⟨a, b⟩ := p
    by_cases hp : a = k
    · have hb : b = s := by simpa [mapGet, hp] using h
      subst hp hb
      exact List.mem_cons_self _ _
    · have h2 : mapGet rest k = some s := by simpa [mapGet, hp] using h
      exact List.mem_cons_of_mem _ (ih h2)

theorem mapGet_eq_some_of_mem {m : Registry} {k : String} {s : Session}
    (hnd : (m.map Prod.fst).Nodup) (h : (k, s) ∈ m) : mapGet m k = some s := by
  induction m with
  | nil => simp at h
  | cons p rest ih =>
    obtain ⟨a, b⟩ := p
    have hsplit : a ∉ rest.map Prod.fst ∧ (rest.map Prod.fst).Nodup := by
      rw [List.map_cons, List.nodup_cons] at hnd
      exact hnd
    rcases List.mem_cons.mp h with heq | hmem
    · have h1 : a = k := (congrArg Prod.fst heq).symm
      have h2 : b = s := (congrArg Prod.snd heq).symm
      simp [mapGet, h1, h2]
    · have hk : k ∈ rest.map Prod.fst := List.mem_map.mpr ⟨(k, s), hmem, rfl⟩
      have hak : ¬ a = k := fun hc => hsplit.1 (hc ▸ hk)
      simp only [mapGet]
      rw [if_neg (by simpa using hak)]
      exact ih hsplit.2 hmem

theorem countKey_le_one_of_nodup (m : Registry) (k : String)
    (h : (m.map Prod.fst).Nodup) : countKey m k ≤ 1 := by
  induction m with
  | nil => simp [countKey]
  | cons p rest ih =>
    obtain ⟨a, b⟩ := p
    have hsplit : a ∉ rest.map Prod.fst ∧ (rest.map Prod.fst).Nodup := by
      rw [List.map_cons, List.nodup_cons] at h
      exact h
    by_cases hp : a = k
    · have hrest : rest.filter (fun q => q.1 == k) = [] := by
        rw [List.filter_eq_nil_iff]
        intro q hq
        simp only [beq_iff_eq]
        intro hqk
        exact hsplit.1 (hp ▸ (hqk ▸ List.mem_map.mpr ⟨q, hq, rfl⟩))
      simp [countKey, List.filter_cons, hp, hrest]
    · have hle : countKey rest k ≤ 1 := ih hsplit.2
      simpa [countKey, List.filter_cons, hp] using hle

/-! Basic facts about room subscriptions and broadcast fan-out. -/

theorem mem_socketJoin_self (rs : Rooms) (sid room : String) :
    (sid, room) ∈ socketJoin rs sid room := by
  unfold socketJoin
  split
  · assumption
  · simp

theorem mem_socketJoin_of_mem {rs : Rooms} {a : String × String} (sid room : String)
    (h : a ∈ rs) : a ∈ socketJoin rs sid room := by
  unfold socketJoin
  split
  · exact h
  · exact List.mem_append_left _ h

theorem mem_socketLeaveAll {rs : Rooms} {a : String × String} (sid : String)
    (h : a ∈ rs) (hne : a.1 ≠ sid) : a ∈ socketLeaveAll rs sid := by
  simp [socketLeaveAll, List.mem_filter, h, hne]

theorem not_mem_socketLeaveAll (rs : Rooms) (sid room : String) :
    (sid, room) ∉ socketLeaveAll rs sid := by
  simp [socketLeaveAll, List.mem_filter]

theorem mem_roomMembers (rs : Rooms) (k room : String) :
    k ∈ roomMembers rs room ↔ (k, room) ∈ rs := by
  simp only [roomMembers, List.mem_map, List.mem_filter]
  constructor
  · rintro ⟨⟨a, b⟩, ⟨hmem, hb⟩, ha⟩
    simp at hb ha
    rw [← ha, ← hb]
    exact hmem
  · intro h
    exact ⟨(k, room), ⟨h, by simp⟩, rfl⟩

theorem mem_ioTo (rs : Rooms) (room : String) (msg : Msg) (k : String) (m : Msg) :
    (k, m) ∈ ioTo rs room msg ↔ (k, room) ∈ rs ∧ m = msg := by
  simp only [ioTo, List.mem_map]
  constructor
  · rintro ⟨a, ha, heq⟩
    have h1 : a = k := congrArg Prod.fst heq
    have h2 : m = msg := (congrArg Prod.snd heq).symm
    exact ⟨(mem_roomMembers rs k room).mp (h1 ▸ ha), h2⟩
  · rintro ⟨h, rfl⟩
    exact ⟨k, (mem_roomMembers rs k room).mpr h, rfl⟩

theorem snd_eq_of_mem_ioTo {rs : Rooms} {room : String} {msg : Msg}
    {d : Delivery} (h : d ∈ ioTo rs room msg) : d.2 = msg := by
  simp only [ioTo, List.mem_map] at h
  obtain ⟨a, _, heq⟩ := h
  rw [← heq]

theorem mem_socketTo (rs : Rooms) (sender room : String) (msg : Msg)
    (k : String) (m : Msg) :
    (k, m) ∈ socketTo rs sender room msg ↔
      (k, room) ∈ rs ∧ k ≠ sender ∧ m = msg := by
  simp only [socketTo, List.mem_map, List.mem_filter]
  constructor
  · rintro ⟨a, ⟨ha, hne⟩, heq⟩
    have h1 : a = k := congrArg Prod.fst heq
    have h2 : m = msg := (congrArg Prod.snd heq).symm
    refine ⟨(mem_roomMembers rs k room).mp (h1 ▸ ha), ?_, h2⟩
    intro hc
    rw [h1, hc] at hne
    simp at hne
  · rintro ⟨h, hne, rfl⟩
    exact ⟨k, ⟨(mem_roomMembers rs k room).mpr h, by simpa using hne⟩, rfl⟩

theorem mem_getRoomUsers (users : Registry) (room n : String) :
    n ∈ getRoomUsers users room ↔
      ∃ p ∈ users, p.2.room = room ∧ p.2.username = n := by
  simp only [getRoomUsers, List.mem_map, List.mem_filter]
  constructor
  · rintro ⟨p, ⟨hmem, hr⟩, hn⟩
    exact ⟨p, hmem, by simpa using hr, hn⟩
  · rintro ⟨p, hmem, hr, hn⟩
    exact ⟨p, ⟨hmem, by simpa using hr⟩, hn⟩

/-! Characterisations of the handlers on the cases the claims need. -/

theorem sliceTrim_empty (n : Nat) : sliceTrim n ("") = ("") := by
  cases n <;> rfl

theorem ne_empty_of_sliceTrim_ne {n : Nat} {s : String}
    (h : sliceTrim n s ≠ ("")) : s ≠ ("") := by
  intro hc
  rw [hc] at h
  exact h (sliceTrim_empty n)

theorem handleJoin_valid (st : ServerState) (sid su sr : String) (now : Nat)
    (hu : sliceTrim 30 su ≠ ("")) (hr : sliceTrim 30 sr ≠ ("")) :
    handleJoin st sid (.str su) (.str sr) now =
      (⟨mapSet st.users sid ⟨sliceTrim 30 su, sliceTrim 30 sr⟩,
        socketJoin st.rooms sid (sliceTrim 30 sr)⟩,
       socketTo (socketJoin st.rooms sid (sliceTrim 30 sr)) sid (sliceTrim 30 sr)
           (.system (sliceTrim 30 su ++ (" joined the room")) now)
         ++ ioTo (socketJoin st.rooms sid (sliceTrim 30 sr)) (sliceTrim 30 sr)
           (.roomUsers (getRoomUsers
             (mapSet st.users sid ⟨sliceTrim 30 su, sliceTrim 30 sr⟩)
             (sliceTrim 30 sr)))) := by
  have hsu : su ≠ ("") := ne_empty_of_sliceTrim_ne hu
  have hsr : sr ≠ ("") := ne_empty_of_sliceTrim_ne hr
  simp [handleJoin, JSVal.truthy, JSVal.toJSString, hsu, hsr, hu, hr]

theorem handleJoin_invalid (st : ServerState) (sid su sr : String) (now : Nat)
    (h : sliceTrim 30 su = ("") ∨ sliceTrim 30 sr = ("")) :
    handleJoin st sid (.str su) (.str sr) now = (st, []) := by
  by_cases hsu : su = ("")
  · simp [handleJoin, JSVal.truthy, hsu]
  · by_cases hsr : sr = ("")
    · simp [handleJoin, JSVal.truthy, hsr]
    · rcases h with h | h <;>
        simp [handleJoin, JSVal.truthy, JSVal.toJSString, hsu, hsr, h]

theorem handleMessage_no_session (st : ServerState) (sid : String) (t : JSVal)
    (now : Nat) (h : mapGet st.users sid = none) :
    handleMessage st sid t now = (st, []) := by
  simp [handleMessage, h]

theorem handleMessage_empty (st : ServerState) (sid : String) (t : JSVal)
    (now : Nat) (u : Session) (h : mapGet st.users sid = some u)
    (ht : sliceTrim 2000 t.toJSString = ("")) :
    handleMessage st sid t now = (st, []) := by
  simp [handleMessage, h, ht]

theorem handleMessage_sends (st : ServerState) (sid : String) (t : JSVal)
    (now : Nat) (u : Session) (h : mapGet st.users sid = some u)
    (ht : sliceTrim 2000 t.toJSString ≠ ("")) :
    handleMessage st sid t now =
      (st, ioTo st.rooms u.room
        (.chat (sid ++ ("-") ++ Nat.repr now) u.username
          (sliceTrim 2000 t.toJSString) now)) := by
  simp [handleMessage, h, ht]

theorem handleMedia_no_session (st : ServerState) (sid : String) (url mt : JSVal)
    (now : Nat) (h : mapGet st.users sid = none) :
    handleMedia st sid url mt now = (st, []) := by
  simp [handleMedia, h]

theorem handleMedia_undef (st : ServerState) (sid : String) (mt : JSVal)
    (now : Nat) (u : Session) (h : mapGet st.users sid = some u) :
    handleMedia st sid .undef mt now = (st, []) := by
  simp [handleMedia, h]

theorem handleMedia_bad_url (st : ServerState) (sid : String) (s : String)
    (mt : JSVal) (now : Nat) (u : Session) (h : mapGet st.users sid = some u)
    (hs : jsStartsWith s ("/uploads/") = false) :
    handleMedia st sid (.str s) mt now = (st, []) := by
  simp [handleMedia, h, hs]

theorem handleMedia_sends (st : ServerState) (sid : String) (s : String)
    (mt : JSVal) (now : Nat) (u : Session) (h : mapGet st.users sid = some u)
    (hs : jsStartsWith s ("/uploads/") = true) :
    handleMedia st sid (.str s) mt now =
      (st, ioTo st.rooms u.room
        (.mediaMsg (sid ++ ("-") ++ Nat.repr now) u.username s
          mt.toJSString now)) := by
  simp [handleMedia, h, hs]

theorem handleDisconnect_no_session (st : ServerState) (sid : String) (now : Nat)
    (h : mapGet st.users sid = none) :
    handleDisconnect st sid now = (⟨st.users, socketLeaveAll st.rooms sid⟩, []) := by
  simp [handleDisconnect, h]

theorem handleDisconnect_session (st : ServerState) (sid : String) (now : Nat)
    (u : Session) (h : mapGet st.users sid = some u) :
    handleDisconnect st sid now =
      (⟨mapDelete st.users sid, socketLeaveAll st.rooms sid⟩,
       socketTo (socketLeaveAll st.rooms sid) sid u.room
           (.system (u.username ++ (" left the room")) now)
         ++ ioTo (socketLeaveAll st.rooms sid) u.room
           (.roomUsers (getRoomUsers (mapDelete st.users sid) u.room))) := by
  simp [handleDisconnect, h]

theorem handleMessage_fst (st : ServerState) (sid : String) (t : JSVal)
    (now : Nat) : (handleMessage st sid t now).1 = st := by
  unfold handleMessage
  cases mapGet st.users sid
  · rfl
  · dsimp only
    split
    · rfl
    · rfl

theorem handleMedia_fst (st : ServerState) (sid : String) (url mt : JSVal)
    (now : Nat) : (handleMedia st sid url mt now).1 = st := by
  unfold handleMedia
  cases mapGet st.users sid
  · rfl
  · dsimp only
    cases url
    · rfl
    · dsimp only
      split
      · rfl
      · rfl

theorem handleTyping_fst (st : ServerState) (sid : String) :
    (handleTyping st sid).1 = st := by
  unfold handleTyping
  cases mapGet st.users sid
  · rfl
  · rfl

theorem handleStopTyping_fst (st : ServerState) (sid : String) :
    (handleStopTyping st sid).1 = st := by
  unfold handleStopTyping
  cases mapGet st.users sid
  · rfl
  · rfl

/-! The state invariant holds in every reachable state. -/

theorem goodState_joinResult (st : ServerState) (sid a b : String)
    (h : goodState st) :
    goodState ⟨mapSet st.users sid ⟨a, b⟩, socketJoin st.rooms sid b⟩ := by
  constructor
  · exact keys_mapSet_nodup _ _ _ h.1
  · intro k s hks
    rw [mapGet_mapSet] at hks
    by_cases hk : k = sid
    · rw [if_pos hk] at hks
      have hs : Session.mk a b = s := by injection hks
      rw [hk, ← hs]
      exact mem_socketJoin_self _ _ _
    · rw [if_neg hk] at hks
      exact mem_socketJoin_of_mem _ _ (h.2 k s hks)

theorem step_goodState (st : ServerState) (e : Event) (now : Nat)
    (h : goodState st) : goodState (step st e now).1 := by
  cases e with
  | join sid u r =>
    simp only [step, handleJoin]
    split
    · exact h
    · split
      · exact h
      · exact goodState_joinResult st sid _ _ h
  | message sid t =>
    rw [show (step st (.message sid t) now).1 = st from handleMessage_fst st sid t now]
    exact h
  | media sid url mt =>
    rw [show (step st (.media sid url mt) now).1 = st from handleMedia_fst st sid url mt now]
    exact h
  | typing sid =>
    rw [show (step st (.typing sid) now).1 = st from handleTyping_fst st sid]
    exact h
  | stopTyping sid =>
    rw [show (step st (.stopTyping sid) now).1 = st from handleStopTyping_fst st sid]
    exact h
  | disconnect sid =>
    cases hm : mapGet st.users sid with
    | none =>
      rw [show step st (.disconnect sid) now = handleDisconnect st sid now from rfl,
        handleDisconnect_no_session st sid now hm]
      constructor
      · exact h.1
      · intro k s hks
        have hne : k ≠ sid := by
          intro hc
          rw [hc, hm] at hks
          cases hks
        exact mem_socketLeaveAll sid (h.2 k s hks) hne
    | some user =>
      rw [show step st (.disconnect sid) now = handleDisconnect st sid now from rfl,
        handleDisconnect_session st sid now user hm]
      constructor
      · exact keys_mapDelete_nodup _ _ h.1
      · intro k s hks
        rw [show mapGet (ServerState.mk (mapDelete st.users sid)
              (socketLeaveAll st.rooms sid)).users k
            = mapGet (mapDelete st.users sid) k from rfl, mapGet_mapDelete] at hks
        by_cases hk : k = sid
        · rw [if_pos hk] at hks
          cases hks
        · rw [if_neg hk] at hks
          exact mem_socketLeaveAll sid (h.2 k s hks) hk

theorem runFrom_goodState (tr : Trace) :
    ∀ st : ServerState, goodState st → goodState (runFrom st tr) := by
  induction tr with
  | nil => intro st h; exact h
  | cons p rest ih =>
    intro st h
    exact ih _ (step_goodState st p.1 p.2 h)

theorem initState_goodState : goodState initState := by
  constructor
  · simp [initState]
  · intro k s h
    simp [initState, mapGet] at h

theorem run_goodState (tr : Trace) : goodState (run tr) :=
  runFrom_goodState tr initState initState_goodState

theorem rooms_mono_join (st : ServerState) (sid2 : String) (u2 r2 : JSVal)
    (now2 : Nat) {p : String × String} (hp : p ∈ st.rooms) :
    p ∈ (step st (.join sid2 u2 r2) now2).1.rooms := by
  simp only [step, handleJoin]
  split
  · exact hp
  · split
    · exact hp
    · exact mem_socketJoin_of_mem _ _ hp

/-! The claims. -/

/-- C1: in every reachable state the Connection Registry holds at most one
entry per connection, and a successful repeat `join` by a connection that
already has an entry overwrites its (username, room) entry wholesale: the
stored session becomes exactly the newly sanitised pair, every other
entry of every other connection is untouched, the per-connection entry count stays at
most one, and the registry size is unchanged — no second entry is ever
created for the same connection. -/
theorem session_unique_and_join_overwrites (tr : Trace) (sid su sr : String)
    (now : Nat)
    (hprev : (mapGet (run tr).users sid).isSome = true)
    (hu : sliceTrim 30 su ≠ ("")) (hr : sliceTrim 30 sr ≠ ("")) :
    countKey (run tr).users sid ≤ 1 ∧
    mapGet ((step (run tr) (.join sid (.str su) (.str sr)) now).1.users) sid
      = some ⟨sliceTrim 30 su, sliceTrim 30 sr⟩ ∧
    (∀ k, k ≠ sid →
      mapGet ((step (run tr) (.join sid (.str su) (.str sr)) now).1.users) k
        = mapGet (run tr).users k) ∧
    (∀ k, countKey ((step (run tr) (.join sid (.str su) (.str sr)) now).1.users) k
      ≤ 1) ∧
    ((step (run tr) (.join sid (.str su) (.str sr)) now).1.users).length
      = (run tr).users.length := by
  have hg := run_goodState tr
  have hstep : step (run tr) (.join sid (.str su) (.str sr)) now
      = handleJoin (run tr) sid (.str su) (.str sr) now := rfl
  rw [hstep, handleJoin_valid (run tr) sid su sr now hu hr]
  refine ⟨countKey_le_one_of_nodup _ _ hg.1, ?_, ?_, ?_, ?_⟩
  · show mapGet (mapSet (run tr).users sid ⟨sliceTrim 30 su, sliceTrim 30 sr⟩) sid
      = some ⟨sliceTrim 30 su, sliceTrim 30 sr⟩
    rw [mapGet_mapSet, if_pos rfl]
  · intro k hk
    show mapGet (mapSet (run tr).users sid ⟨sliceTrim 30 su, sliceTrim 30 sr⟩) k
      = mapGet (run tr).users k
    rw [mapGet_mapSet, if_neg hk]
  · intro k
    exact countKey_le_one_of_nodup _ _ (keys_mapSet_nodup _ _ _ hg.1)
  · exact length_mapSet_of_isSome _ _ _ hprev

/-- Witness for C1: after `A` has joined, a repeat join of `A` under a new
name and room replaces its single registry entry. -/
theorem session_unique_and_join_overwrites_witness :
    (mapGet (run demoTrace).users ("A")).isSome = true ∧
    sliceTrim 30 ("zed") ≠ ("") ∧ sliceTrim 30 ("rq") ≠ ("") ∧
    (countKey (run demoTrace).users ("A") ≤ 1 ∧
      mapGet ((step (run demoTrace) (.join ("A") (.str ("zed")) (.str ("rq"))) 2).1.users)
          ("A") = some ⟨sliceTrim 30 ("zed"), sliceTrim 30 ("rq")⟩ ∧
      (∀ k, k ≠ ("A") →
        mapGet ((step (run demoTrace) (.join ("A") (.str ("zed")) (.str ("rq"))) 2).1.users) k
          = mapGet (run demoTrace).users k) ∧
      (∀ k, countKey
        ((step (run demoTrace) (.join ("A") (.str ("zed")) (.str ("rq"))) 2).1.users) k
          ≤ 1) ∧
      ((step (run demoTrace) (.join ("A") (.str ("zed")) (.str ("rq"))) 2).1.users).length
        = (run demoTrace).users.length) :=
  ⟨by decide, by decide, by decide,
   session_unique_and_join_overwrites demoTrace ("A") ("zed") ("rq") 2
     (by decide) (by decide) (by decide)⟩

/-- C2: in every reachable state, a name is in `getRoomUsers room` exactly
when the current session of some connection has that room and that username, and
the registry entry of a disconnected connection is gone immediately after the
disconnect event — so the roster can never include it. -/
theorem roster_matches_registry (tr : Trace) (room n : String) :
    (n ∈ getRoomUsers (run tr).users room ↔
      ∃ sid s, mapGet (run tr).users sid = some s ∧ s.room = room ∧
        s.username = n) ∧
    (∀ sid now, mapGet ((step (run tr) (.disconnect sid) now).1.users) sid
      = none) := by
  have hg := run_goodState tr
  constructor
  · rw [mem_getRoomUsers]
    constructor
    · rintro ⟨⟨k, s⟩, hmem, hr, hn⟩
      exact ⟨k, s, mapGet_eq_some_of_mem hg.1 hmem, hr, hn⟩
    · rintro ⟨k, s, hks, hr, hn⟩
      exact ⟨(k, s), mem_of_mapGet_eq_some hks, hr, hn⟩
  · intro sid now
    have hstep : step (run tr) (.disconnect sid) now
        = handleDisconnect (run tr) sid now := rfl
    cases hm : mapGet (run tr).users sid with
    | none =>
      rw [hstep, handleDisconnect_no_session _ _ _ hm]
      exact hm
    | some u =>
      rw [hstep, handleDisconnect_session _ _ _ u hm]
      show mapGet (mapDelete (run tr).users sid) sid = none
      rw [mapGet_mapDelete, if_pos rfl]

/-- C3 counterexample: `A` joins `r1`, `B` joins `r1`, then `A` re-joins
into `r2`; the registered members of `r1` are now exactly `bo`, yet the
chat broadcast addressed to `r1` (sent by `B`) is still delivered to `A`,
whose current session room is `r2`.  So a broadcast is not delivered
exactly to the currently-registered members of its room, and a repeat join
into a different room does not stop the broadcasts of the old room. -/
theorem stale_room_broadcast_counterexample :
    mapGet (run [(.join ("A") (.str ("al")) (.str ("r1")), 1),
                 (.join ("B") (.str ("bo")) (.str ("r1")), 2),
                 (.join ("A") (.str ("al")) (.str ("r2")), 3)]).users ("A")
      = some ⟨("al"), ("r2")⟩ ∧
    getRoomUsers (run [(.join ("A") (.str ("al")) (.str ("r1")), 1),
                 (.join ("B") (.str ("bo")) (.str ("r1")), 2),
                 (.join ("A") (.str ("al")) (.str ("r2")), 3)]).users ("r1")
      = [("bo")] ∧
    (step (run [(.join ("A") (.str ("al")) (.str ("r1")), 1),
                 (.join ("B") (.str ("bo")) (.str ("r1")), 2),
                 (.join ("A") (.str ("al")) (.str ("r2")), 3)])
        (.message ("B") (.str ("hi"))) 4).2
      = [(("A"), .chat ("B-4") ("bo") ("hi") 4),
         (("B"), .chat ("B-4") ("bo") ("hi") 4)] :=
  ⟨by decide, by decide, by decide⟩

/-- C3 amended: every broadcast addressed to room R is delivered exactly to
the connections subscribed to the broadcast group of R — those that joined R
since connecting and have not disconnected — minus the excluded originating
connection when one is given.  That group contains every
currently-registered member of R, but a repeat join into a different room
does not remove the old subscription, so such a connection continues to
receive broadcasts addressed to its old room. -/
theorem broadcast_targets_subscriptions (tr : Trace) (sid : String)
    (u : Session) (text : String) (now : Nat)
    (hu : mapGet (run tr).users sid = some u)
    (ht : sliceTrim 2000 text ≠ ("")) :
    (step (run tr) (.message sid (.str text)) now).2
      = ioTo (run tr).rooms u.room
          (.chat (sid ++ ("-") ++ Nat.repr now) u.username
            (sliceTrim 2000 text) now) ∧
    (∀ k, (k, u.room) ∈ (run tr).rooms →
      (k, Msg.chat (sid ++ ("-") ++ Nat.repr now) u.username
          (sliceTrim 2000 text) now)
        ∈ (step (run tr) (.message sid (.str text)) now).2) ∧
    (∀ k s, mapGet (run tr).users k = some s → s.room = u.room →
      (k, Msg.chat (sid ++ ("-") ++ Nat.repr now) u.username
          (sliceTrim 2000 text) now)
        ∈ (step (run tr) (.message sid (.str text)) now).2) ∧
    (∀ p, p ∈ (run tr).rooms → ∀ sid2 u2 r2 now2,
      p ∈ ((step (run tr) (.join sid2 u2 r2) now2).1).rooms) := by
  have hg := run_goodState tr
  have hstep : step (run tr) (.message sid (.str text)) now
      = handleMessage (run tr) sid (.str text) now := rfl
  have hsend := handleMessage_sends (run tr) sid (.str text) now u hu ht
  refine ⟨?_, ?_, ?_, ?_⟩
  · rw [hstep, hsend]
    rfl
  · intro k hk
    rw [hstep, hsend]
    exact (mem_ioTo _ _ _ _ _).mpr ⟨hk, rfl⟩
  · intro k s hks hroom
    rw [hstep, hsend]
    exact (mem_ioTo _ _ _ _ _).mpr ⟨hroom ▸ hg.2 k s hks, rfl⟩
  · intro p hp sid2 u2 r2 now2
    exact rooms_mono_join (run tr) sid2 u2 r2 now2 hp

/-- Witness for the amended theorem of C3: with `A` and `B` registered in `rm`,
a chat message from `A` is delivered to the subscribers of `rm`. -/
theorem broadcast_targets_subscriptions_witness :
    mapGet (run demoTrace2).users ("A") = some ⟨("al"), ("rm")⟩ ∧
    sliceTrim 2000 ("hi") ≠ ("") ∧
    (step (run demoTrace2) (.message ("A") (.str ("hi"))) 5).2
      = ioTo (run demoTrace2).rooms ("rm")
          (.chat (("A") ++ ("-") ++ Nat.repr 5) ("al") (sliceTrim 2000 ("hi")) 5) :=
  ⟨by decide, by decide,
   (broadcast_targets_subscriptions demoTrace2 ("A") ⟨("al"), ("rm")⟩ ("hi") 5
     (by decide) (by decide)).1⟩

/-- C4: a `join` whose two fields are strings succeeds — stores a session
and emits deliveries — exactly when both fields are non-empty after the
sanitisation `slice(0, 30).trim()`; on success the stored entry is the
sanitised (truncated, never rejected) pair, and an invalid join is dropped
silently: the state is unchanged and nothing at all is emitted, to the
client or to anyone else. -/
theorem join_validation_iff (tr : Trace) (sid su sr : String) (now : Nat) :
    ((step (run tr) (.join sid (.str su) (.str sr)) now).2 ≠ [] ↔
      (sliceTrim 30 su ≠ ("") ∧ sliceTrim 30 sr ≠ (""))) ∧
    (sliceTrim 30 su ≠ ("") → sliceTrim 30 sr ≠ ("") →
      (step (run tr) (.join sid (.str su) (.str sr)) now).1.users
        = mapSet (run tr).users sid ⟨sliceTrim 30 su, sliceTrim 30 sr⟩) ∧
    ((sliceTrim 30 su = ("") ∨ sliceTrim 30 sr = ("")) →
      step (run tr) (.join sid (.str su) (.str sr)) now = ((run tr), [])) := by
  have hstep : step (run tr) (.join sid (.str su) (.str sr)) now
      = handleJoin (run tr) sid (.str su) (.str sr) now := rfl
  by_cases hsu : sliceTrim 30 su = ("")
  · rw [hstep, handleJoin_invalid (run tr) sid su sr now (Or.inl hsu)]
    refine ⟨?_, ?_, ?_⟩
    · constructor
      · intro h
        exact absurd rfl h
      · rintro ⟨h1, _⟩
        exact absurd hsu h1
    · intro h1 _
      exact absurd hsu h1
    · intro _
      rfl
  · by_cases hsr : sliceTrim 30 sr = ("")
    · rw [hstep, handleJoin_invalid (run tr) sid su sr now (Or.inr hsr)]
      refine ⟨?_, ?_, ?_⟩
      · constructor
        · intro h
          exact absurd rfl h
        · rintro ⟨_, h2⟩
          exact absurd hsr h2
      · intro _ h2
        exact absurd hsr h2
      · intro _
        rfl
    · rw [hstep, handleJoin_valid (run tr) sid su sr now hsu hsr]
      refine ⟨?_, fun _ _ => rfl, fun hcon => ?_⟩
      · constructor
        · intro _
          exact ⟨hsu, hsr⟩
        · intro _
          exact List.ne_nil_of_mem
            (List.mem_append_right _
              ((mem_ioTo _ _ _ _ _).mpr ⟨mem_socketJoin_self _ _ _, rfl⟩))
      · rcases hcon with h | h
        · exact absurd h hsu
        · exact absurd h hsr

/-- Witness for C4: a valid join stores the sanitised session; the
validity test and the stored entry evaluate on a concrete input. -/
theorem join_validation_iff_witness :
    ((step (run demoTrace) (.join ("B") (.str (" bo ")) (.str ("rm"))) 2).2 ≠ [] ↔
      (sliceTrim 30 (" bo ") ≠ ("") ∧ sliceTrim 30 ("rm") ≠ (""))) ∧
    (sliceTrim 30 (" bo ") ≠ ("") → sliceTrim 30 ("rm") ≠ ("") →
      (step (run demoTrace) (.join ("B") (.str (" bo ")) (.str ("rm"))) 2).1.users
        = mapSet (run demoTrace).users ("B")
            ⟨sliceTrim 30 (" bo "), sliceTrim 30 ("rm")⟩) ∧
    ((sliceTrim 30 (" bo ") = ("") ∨ sliceTrim 30 ("rm") = ("")) →
      step (run demoTrace) (.join ("B") (.str (" bo ")) (.str ("rm"))) 2
        = ((run demoTrace), [])) :=
  join_validation_iff demoTrace ("B") (" bo ") ("rm") 2

/-- C5: a `message` event from a joined connection whose text trims to
empty produces no broadcast at all — not even an echo to the sender, the
state is unchanged and the delivery list is empty.  Otherwise the text is
trimmed and truncated to 2000 characters and a ChatMessage carrying it,
the username of the sender and the server-assigned timestamp is broadcast to
the room: the sender receives it, every registered member of the room of the sender
receives it, and every delivery of the event carries exactly that
message. -/
theorem message_empty_dropped_else_broadcast (tr : Trace) (sid : String)
    (u : Session) (text : String) (now : Nat)
    (hu : mapGet (run tr).users sid = some u) :
    (sliceTrim 2000 text = ("") →
      step (run tr) (.message sid (.str text)) now = ((run tr), [])) ∧
    (sliceTrim 2000 text ≠ ("") →
      ((sid, Msg.chat (sid ++ ("-") ++ Nat.repr now) u.username
          (sliceTrim 2000 text) now)
        ∈ (step (run tr) (.message sid (.str text)) now).2) ∧
      (∀ k s, mapGet (run tr).users k = some s → s.room = u.room →
        (k, Msg.chat (sid ++ ("-") ++ Nat.repr now) u.username
            (sliceTrim 2000 text) now)
          ∈ (step (run tr) (.message sid (.str text)) now).2) ∧
      (∀ d, d ∈ (step (run tr) (.message sid (.str text)) now).2 →
        d.2 = Msg.chat (sid ++ ("-") ++ Nat.repr now) u.username
          (sliceTrim 2000 text) now)) := by
  have hg := run_goodState tr
  have hstep : step (run tr) (.message sid (.str text)) now
      = handleMessage (run tr) sid (.str text) now := rfl
  constructor
  · intro ht
    rw [hstep, handleMessage_empty (run tr) sid (.str text) now u hu ht]
  · intro ht
    have hsend := handleMessage_sends (run tr) sid (.str text) now u hu ht
    refine ⟨?_, ?_, ?_⟩
    · rw [hstep, hsend]
      exact (mem_ioTo _ _ _ _ _).mpr ⟨hg.2 sid u hu, rfl⟩
    · intro k s hks hroom
      rw [hstep, hsend]
      exact (mem_ioTo _ _ _ _ _).mpr ⟨hroom ▸ hg.2 k s hks, rfl⟩
    · intro d hd
      rw [hstep, hsend] at hd
      exact snd_eq_of_mem_ioTo hd

/-- Witness for C5: `B` (joined in room `rm`) sends a message whose text
trims to `hi`; `B` itself is among the recipients of the broadcast. -/
theorem message_empty_dropped_else_broadcast_witness :
    mapGet (run demoTrace2).users ("B") = some ⟨("bo"), ("rm")⟩ ∧
    sliceTrim 2000 (" hi ") ≠ ("") ∧
    (("B"), Msg.chat (("B") ++ ("-") ++ Nat.repr 3) ("bo")
        (sliceTrim 2000 (" hi ")) 3)
      ∈ (step (run demoTrace2) (.message ("B") (.str (" hi "))) 3).2 :=
  ⟨by decide, by decide,
   ((message_empty_dropped_else_broadcast demoTrace2 ("B") ⟨("bo"), ("rm")⟩
     (" hi ") 3 (by decide)).2 (by decide)).1⟩

/-- C6: a `media` event from a joined connection is broadcast to the room
as a MediaMessage exactly when its url is a string beginning with
`/uploads/`: in that case the deliveries are the fan-out to the room of
the sender (the sender among them); a string url with any other shape, or a
non-string (`undefined`) url, is dropped silently — state unchanged,
nothing emitted to anyone. -/
theorem media_url_gate (tr : Trace) (sid : String) (u : Session)
    (url mt : JSVal) (now : Nat)
    (hu : mapGet (run tr).users sid = some u) :
    (∀ s, url = .str s → jsStartsWith s ("/uploads/") = true →
      ((step (run tr) (.media sid url mt) now).2
          = ioTo (run tr).rooms u.room
              (.mediaMsg (sid ++ ("-") ++ Nat.repr now) u.username s
                mt.toJSString now)) ∧
      ((sid, Msg.mediaMsg (sid ++ ("-") ++ Nat.repr now) u.username s
          mt.toJSString now)
        ∈ (step (run tr) (.media sid url mt) now).2)) ∧
    (∀ s, url = .str s → jsStartsWith s ("/uploads/") = false →
      step (run tr) (.media sid url mt) now = ((run tr), [])) ∧
    (url = .undef → step (run tr) (.media sid url mt) now = ((run tr), [])) := by
  have hg := run_goodState tr
  refine ⟨?_, ?_, ?_⟩
  · intro s hs hok
    subst hs
    have hstep : step (run tr) (.media sid (.str s) mt) now
        = handleMedia (run tr) sid (.str s) mt now := rfl
    have hsend := handleMedia_sends (run tr) sid s mt now u hu hok
    constructor
    · rw [hstep, hsend]
    · rw [hstep, hsend]
      exact (mem_ioTo _ _ _ _ _).mpr ⟨hg.2 sid u hu, rfl⟩
  · intro s hs hbad
    subst hs
    have hstep : step (run tr) (.media sid (.str s) mt) now
        = handleMedia (run tr) sid (.str s) mt now := rfl
    rw [hstep, handleMedia_bad_url (run tr) sid s mt now u hu hbad]
  · intro hs
    subst hs
    have hstep : step (run tr) (.media sid .undef mt) now
        = handleMedia (run tr) sid .undef mt now := rfl
    rw [hstep, handleMedia_undef (run tr) sid mt now u hu]

/-- Witness for C6: a url under `/uploads/` is broadcast (with the sender
among the recipients) while an external url would have to satisfy the
`false` arm; all hypotheses evaluate on a concrete input. -/
theorem media_url_gate_witness :
    mapGet (run demoTrace).users ("A") = some ⟨("al"), ("rm")⟩ ∧
    jsStartsWith ("/uploads/1.png") ("/uploads/") = true ∧
    jsStartsWith ("https://evil.example/x") ("/uploads/") = false ∧
    (("A"), Msg.mediaMsg (("A") ++ ("-") ++ Nat.repr 2) ("al")
        ("/uploads/1.png") ("image/png") 2)
      ∈ (step (run demoTrace)
          (.media ("A") (.str ("/uploads/1.png")) (.str ("image/png"))) 2).2 ∧
    step (run demoTrace)
        (.media ("A") (.str ("https://evil.example/x")) (.str ("image/png"))) 2
      = ((run demoTrace), []) :=
  ⟨by decide, by decide, by decide,
   ((media_url_gate demoTrace ("A") ⟨("al"), ("rm")⟩
       (.str ("/uploads/1.png")) (.str ("image/png")) 2 (by decide)).1
     ("/uploads/1.png") rfl (by decide)).2,
   (media_url_gate demoTrace ("A") ⟨("al"), ("rm")⟩
       (.str ("https://evil.example/x")) (.str ("image/png")) 2 (by decide)).2.1
     ("https://evil.example/x") rfl (by decide)⟩

/-- C7: on every successful join, the system "joined" notice reaches every
other registered member of the target room but is never delivered to the
joining connection itself, and the updated roster reaches every registered
member of the room — the joining connection included. -/
theorem join_notices_delivery (tr : Trace) (sid su sr : String) (now : Nat)
    (hsu : sliceTrim 30 su ≠ ("")) (hsr : sliceTrim 30 sr ≠ ("")) :
    (∀ k s, k ≠ sid →
      mapGet ((step (run tr) (.join sid (.str su) (.str sr)) now).1.users) k
        = some s →
      s.room = sliceTrim 30 sr →
      (k, Msg.system (sliceTrim 30 su ++ (" joined the room")) now)
        ∈ (step (run tr) (.join sid (.str su) (.str sr)) now).2) ∧
    ((sid, Msg.system (sliceTrim 30 su ++ (" joined the room")) now)
      ∉ (step (run tr) (.join sid (.str su) (.str sr)) now).2) ∧
    (∀ k s,
      mapGet ((step (run tr) (.join sid (.str su) (.str sr)) now).1.users) k
        = some s →
      s.room = sliceTrim 30 sr →
      (k, Msg.roomUsers (getRoomUsers
          ((step (run tr) (.join sid (.str su) (.str sr)) now).1.users)
          (sliceTrim 30 sr)))
        ∈ (step (run tr) (.join sid (.str su) (.str sr)) now).2) ∧
    ((sid, Msg.roomUsers (getRoomUsers
        ((step (run tr) (.join sid (.str su) (.str sr)) now).1.users)
        (sliceTrim 30 sr)))
      ∈ (step (run tr) (.join sid (.str su) (.str sr)) now).2) := by
  have hg := run_goodState tr
  have hstep : step (run tr) (.join sid (.str su) (.str sr)) now
      = handleJoin (run tr) sid (.str su) (.str sr) now := rfl
  have hv := handleJoin_valid (run tr) sid su sr now hsu hsr
  rw [hstep, hv]
  refine ⟨?_, ?_, ?_, ?_⟩
  · intro k s hk hks hroom
    have hks2 : mapGet (run tr).users k = some s := by
      have hks1 : mapGet
          (mapSet (run tr).users sid ⟨sliceTrim 30 su, sliceTrim 30 sr⟩) k
          = some s := hks
      rwa [mapGet_mapSet, if_neg hk] at hks1
    exact List.mem_append_left _
      ((mem_socketTo _ _ _ _ _ _).mpr
        ⟨mem_socketJoin_of_mem _ _ (hroom ▸ hg.2 k s hks2), hk, rfl⟩)
  · intro hmem
    rcases List.mem_append.mp hmem with h | h
    · exact absurd ((mem_socketTo _ _ _ _ _ _).mp h).2.1 (by simp)
    · have := ((mem_ioTo _ _ _ _ _).mp h).2
      simp at this
  · intro k s hks hroom
    by_cases hk : k = sid
    · subst hk
      exact List.mem_append_right _
        ((mem_ioTo _ _ _ _ _).mpr ⟨mem_socketJoin_self _ _ _, rfl⟩)
    · have hks2 : mapGet (run tr).users k = some s := by
        have hks1 : mapGet
            (mapSet (run tr).users sid ⟨sliceTrim 30 su, sliceTrim 30 sr⟩) k
            = some s := hks
        rwa [mapGet_mapSet, if_neg hk] at hks1
      exact List.mem_append_right _
        ((mem_ioTo _ _ _ _ _).mpr
          ⟨mem_socketJoin_of_mem _ _ (hroom ▸ hg.2 k s hks2), rfl⟩)
  · exact List.mem_append_right _
      ((mem_ioTo _ _ _ _ _).mpr ⟨mem_socketJoin_self _ _ _, rfl⟩)

/-- Witness for C7: when `B` joins `rm` (already inhabited by `A`), `B`
does not receive the "joined" notice about itself but does receive the
updated roster. -/
theorem join_notices_delivery_witness :
    sliceTrim 30 ("bo") ≠ ("") ∧ sliceTrim 30 ("rm") ≠ ("") ∧
    ((("B"), Msg.system (sliceTrim 30 ("bo") ++ (" joined the room")) 2)
      ∉ (step (run demoTrace) (.join ("B") (.str ("bo")) (.str ("rm"))) 2).2) ∧
    ((("B"), Msg.roomUsers (getRoomUsers
        ((step (run demoTrace) (.join ("B") (.str ("bo")) (.str ("rm"))) 2).1.users)
        (sliceTrim 30 ("rm"))))
      ∈ (step (run demoTrace) (.join ("B") (.str ("bo")) (.str ("rm"))) 2).2) :=
  ⟨by decide, by decide,
   (join_notices_delivery demoTrace ("B") ("bo") ("rm") 2
     (by decide) (by decide)).2.1,
   (join_notices_delivery demoTrace ("B") ("bo") ("rm") 2
     (by decide) (by decide)).2.2.2⟩

/-- C8: on disconnect of a connection with a session, its registry entry is
deleted; the "left" notice and the roster — recomputed after the deletion,
so witnessed only by connections other than the departed one — reach every
remaining registered member of the room, and the departed connection
receives nothing.  A disconnect of a connection without a session emits no
delivery at all and leaves the registry untouched. -/
theorem disconnect_cleanup (tr : Trace) (sid : String) (now : Nat) :
    (∀ u, mapGet (run tr).users sid = some u →
      ((step (run tr) (.disconnect sid) now).1.users
          = mapDelete (run tr).users sid) ∧
      (∀ k s, mapGet ((step (run tr) (.disconnect sid) now).1.users) k
          = some s →
        s.room = u.room →
        ((k, Msg.system (u.username ++ (" left the room")) now)
            ∈ (step (run tr) (.disconnect sid) now).2 ∧
         (k, Msg.roomUsers (getRoomUsers (mapDelete (run tr).users sid) u.room))
            ∈ (step (run tr) (.disconnect sid) now).2)) ∧
      (∀ n, n ∈ getRoomUsers ((step (run tr) (.disconnect sid) now).1.users)
          u.room →
        ∃ k s, k ≠ sid ∧
          mapGet ((step (run tr) (.disconnect sid) now).1.users) k = some s ∧
          s.room = u.room ∧ s.username = n) ∧
      (∀ m, (sid, m) ∉ (step (run tr) (.disconnect sid) now).2)) ∧
    (mapGet (run tr).users sid = none →
      (step (run tr) (.disconnect sid) now).2 = [] ∧
      (step (run tr) (.disconnect sid) now).1.users = (run tr).users) := by
  have hg := run_goodState tr
  have hstep : step (run tr) (.disconnect sid) now
      = handleDisconnect (run tr) sid now := rfl
  constructor
  · intro u hm
    have hd := handleDisconnect_session (run tr) sid now u hm
    rw [hstep, hd]
    have hnodup : ((mapDelete (run tr).users sid).map Prod.fst).Nodup :=
      keys_mapDelete_nodup _ _ hg.1
    refine ⟨rfl, ?_, ?_, ?_⟩
    · intro k s hks hroom
      have hks1 : mapGet (mapDelete (run tr).users sid) k = some s := hks
      rw [mapGet_mapDelete] at hks1
      by_cases hk : k = sid
      · rw [if_pos hk] at hks1
        cases hks1
      · rw [if_neg hk] at hks1
        have hmem : (k, u.room) ∈ socketLeaveAll (run tr).rooms sid :=
          mem_socketLeaveAll sid (hroom ▸ hg.2 k s hks1) hk
        exact ⟨List.mem_append_left _
            ((mem_socketTo _ _ _ _ _ _).mpr ⟨hmem, hk, rfl⟩),
          List.mem_append_right _ ((mem_ioTo _ _ _ _ _).mpr ⟨hmem, rfl⟩)⟩
    · intro n hn
      have hn1 : n ∈ getRoomUsers (mapDelete (run tr).users sid) u.room := hn
      obtain ⟨⟨k, s⟩, hmem, hroom, hname⟩ := (mem_getRoomUsers _ _ _).mp hn1
      have hks : mapGet (mapDelete (run tr).users sid) k = some s :=
        mapGet_eq_some_of_mem hnodup hmem
      have hk : k ≠ sid := by
        intro hc
        rw [hc, mapGet_mapDelete, if_pos rfl] at hks
        cases hks
      exact ⟨k, s, hk, hks, hroom, hname⟩
    · intro m hmem
      rcases List.mem_append.mp hmem with h | h
      · exact absurd ((mem_socketTo _ _ _ _ _ _).mp h).2.1 (by simp)
      · exact absurd ((mem_ioTo _ _ _ _ _).mp h).1
          (not_mem_socketLeaveAll _ _ _)
  · intro hm
    rw [hstep, handleDisconnect_no_session (run tr) sid now hm]
    exact ⟨rfl, rfl⟩

/-- Witness for C8: after `B` disconnects from `rm`, its entry is deleted
and it receives no delivery of any kind. -/
theorem disconnect_cleanup_witness :
    mapGet (run demoTrace2).users ("B") = some ⟨("bo"), ("rm")⟩ ∧
    ((step (run demoTrace2) (.disconnect ("B")) 3).1.users
      = mapDelete (run demoTrace2).users ("B")) ∧
    (∀ m, (("B"), m) ∉ (step (run demoTrace2) (.disconnect ("B")) 3).2) :=
  ⟨by decide,
   ((disconnect_cleanup demoTrace2 ("B") 3).1 ⟨("bo"), ("rm")⟩ (by decide)).1,
   ((disconnect_cleanup demoTrace2 ("B") 3).1 ⟨("bo"), ("rm")⟩ (by decide)).2.2.2⟩

/-- C9: every broadcast ChatMessage and MediaMessage carries the synthetic
id built from the connection id of the sender and the server-assigned
millisecond timestamp (joined by a hyphen), so two distinct messages sent
by the same connection within the same millisecond carry equal ids: the
concrete pair below — two different texts sent by `A` at millisecond 7 —
are distinct messages with the same id `A-7`. -/
theorem message_id_scheme_collision (tr : Trace) (sid : String) (u : Session)
    (now : Nat) (hu : mapGet (run tr).users sid = some u) :
    (∀ text d, d ∈ (step (run tr) (.message sid (.str text)) now).2 →
      d.2 = Msg.chat (sid ++ ("-") ++ Nat.repr now) u.username
        (sliceTrim 2000 text) now) ∧
    (∀ s mt d, d ∈ (step (run tr) (.media sid (.str s) (.str mt)) now).2 →
      d.2 = Msg.mediaMsg (sid ++ ("-") ++ Nat.repr now) u.username s mt now) ∧
    ((step (run demoTrace) (.message ("A") (.str ("hi"))) 7).2
        = [(("A"), .chat ("A-7") ("al") ("hi") 7)] ∧
     (step (run demoTrace) (.message ("A") (.str ("yo"))) 7).2
        = [(("A"), .chat ("A-7") ("al") ("yo") 7)] ∧
     Msg.chat ("A-7") ("al") ("hi") 7 ≠ Msg.chat ("A-7") ("al") ("yo") 7) := by
  have hstep : ∀ t : JSVal, step (run tr) (.message sid t) now
      = handleMessage (run tr) sid t now := fun _ => rfl
  refine ⟨?_, ?_, by decide, by decide, by decide⟩
  · intro text d hd
    by_cases ht : sliceTrim 2000 text = ("")
    · rw [hstep, handleMessage_empty (run tr) sid (.str text) now u hu ht] at hd
      simp at hd
    · rw [hstep, handleMessage_sends (run tr) sid (.str text) now u hu ht] at hd
      exact snd_eq_of_mem_ioTo hd
  · intro s mt d hd
    have hstepm : step (run tr) (.media sid (.str s) (.str mt)) now
        = handleMedia (run tr) sid (.str s) (.str mt) now := rfl
    by_cases hs : jsStartsWith s ("/uploads/") = true
    · rw [hstepm,
        handleMedia_sends (run tr) sid s (.str mt) now u hu hs] at hd
      exact snd_eq_of_mem_ioTo hd
    · rw [hstepm, handleMedia_bad_url (run tr) sid s (.str mt) now u hu
        (by simpa using hs)] at hd
      simp at hd

/-- Witness for C9: instantiated for `A` in the demo state; the collision
conjunct exhibits the two same-millisecond messages with equal ids. -/
theorem message_id_scheme_collision_witness :
    mapGet (run demoTrace).users ("A") = some ⟨("al"), ("rm")⟩ ∧
    ((step (run demoTrace) (.message ("A") (.str ("hi"))) 7).2
        = [(("A"), .chat ("A-7") ("al") ("hi") 7)] ∧
     (step (run demoTrace) (.message ("A") (.str ("yo"))) 7).2
        = [(("A"), .chat ("A-7") ("al") ("yo") 7)] ∧
     Msg.chat ("A-7") ("al") ("hi") 7 ≠ Msg.chat ("A-7") ("al") ("yo") 7) :=
  ⟨by decide,
   (message_id_scheme_collision demoTrace ("A") ⟨("al"), ("rm")⟩ 7
     (by decide)).2.2⟩

/-- C10: a `message` event from a joined connection whose text field is
absent (`undefined`) is not dropped: `String(text)` coerces it to the
literal string "undefined", which survives truncation and trimming, so a
ChatMessage with text "undefined" is broadcast to the room of the sender, the
sender included. -/
theorem message_undefined_text (tr : Trace) (sid : String) (u : Session)
    (now : Nat) (hu : mapGet (run tr).users sid = some u) :
    step (run tr) (.message sid .undef) now
      = ((run tr), ioTo (run tr).rooms u.room
          (.chat (sid ++ ("-") ++ Nat.repr now) u.username ("undefined") now)) ∧
    (sid, Msg.chat (sid ++ ("-") ++ Nat.repr now) u.username ("undefined") now)
      ∈ (step (run tr) (.message sid .undef) now).2 := by
  have hg := run_goodState tr
  have hstep : step (run tr) (.message sid .undef) now
      = handleMessage (run tr) sid .undef now := rfl
  have ht : sliceTrim 2000 (JSVal.undef.toJSString) ≠ ("") := by decide
  have hsend := handleMessage_sends (run tr) sid .undef now u hu ht
  constructor
  · rw [hstep, hsend]
    rfl
  · rw [hstep, hsend]
    exact (mem_ioTo _ _ _ _ _).mpr ⟨hg.2 sid u hu, rfl⟩

/-- Witness for C10: `A` sends a `message` with no text field; the
broadcast carries the literal text "undefined" and reaches `A` itself. -/
theorem message_undefined_text_witness :
    mapGet (run demoTrace).users ("A") = some ⟨("al"), ("rm")⟩ ∧
    step (run demoTrace) (.message ("A") .undef) 9
      = ((run demoTrace), ioTo (run demoTrace).rooms ("rm")
          (.chat (("A") ++ ("-") ++ Nat.repr 9) ("al") ("undefined") 9)) :=
  ⟨by decide,
   (message_undefined_text demoTrace ("A") ⟨("al"), ("rm")⟩ 9 (by decide)).1⟩

end ChatRelay
